import Mathlib

/-!
Verification of the Marker-OCR-API job-orchestration and progress-tracking
pipeline, shallowly embedded from the Python sources under `backend/app`.

Timestamps (`time.time()` values) and durations are modelled as rationals.
Python `dict`s with insertion order are modelled as association lists; in-place
mutation becomes explicit state passing.  A Python value that may be `None` is
an `Option`; Python truthiness of an optional float (`if x:`) is `truthy` below
(`None` and `0.0` are falsy).
-/

namespace MarkerOCR

/-- Python truthiness of an optional float (`None` and `0.0` are falsy). -/
def truthy : Option ℚ → Bool
  | none => false
  | some q => q != 0

/-- `app/models/response_models.py`, `StepStatus`: step status values. -/
inductive StepStatus where
  | pending
  | in_progress
  | completed
  | failed
deriving Repr, DecidableEq

/-! ## `extract.py` — `process_extraction.update_step` (lines 679-703)

In `app/api/routes/extract.py` the nested function `update_step` keeps a local
`steps` dict mapping step names to plain dicts
`{"name", "status", "start_time", "end_time", "duration"}` with string
statuses.  The trailing `redis_service.store_execution(...)` call of
`update_step` is modelled separately (see `RedisServiceMethods` below: the
method does not exist, so that call raises); the dict mutation below happens
before that call.
-/

/-- One entry of the `steps` dict of `process_extraction` in
`app/api/routes/extract.py`: a plain dict with a string status. -/
structure ExtractStep where
  name : String
  status : String
  start_time : Option ℚ
  end_time : Option ℚ
  duration : Option ℚ
deriving Repr, DecidableEq

/-- The `steps` dict of `process_extraction`, as an insertion-ordered
association list. -/
abbrev ExtractSteps := List (String × ExtractStep)

/-- Update the value bound to `k` in place (first occurrence). -/
def assocSet {β : Type} (m : List (String × β)) (k : String) (f : β → β) :
    List (String × β) :=
  match m with
  | [] => []
  | (k', v) :: rest =>
      if k' = k then (k', f v) :: rest else (k', v) :: assocSet rest k f

/-- Lookup in an association list (Python `d[k]` / `k in d`). -/
def assocFind {β : Type} (m : List (String × β)) (k : String) : Option β :=
  match m with
  | [] => none
  | (k', v) :: rest => if k' = k then some v else assocFind rest k

/-- `update_step(step_name, status, step_time=None)` from
`app/api/routes/extract.py` (the `step_time` parameter is unused by the
source; `now` is the value of `time.time()` at the call).  Creates the step
lazily as `pending`, sets it `in_progress` with `start_time = now`, or
`completed` with `end_time = now` and
`duration = end_time - start_time` only when `start_time` is truthy.  Any
other status (including `"failed"`) only creates the entry. -/
def update_step (steps : ExtractSteps) (step_name status : String) (now : ℚ) :
    ExtractSteps :=
  let steps :=
    if (assocFind steps step_name).isSome then steps
    else steps ++ [(step_name,
      { name := step_name, status := "pending",
        start_time := none, end_time := none, duration := none })]
  if status = "in_progress" then
    assocSet steps step_name fun s =>
      { s with status := "in_progress", start_time := some now }
  else if status = "completed" then
    assocSet steps step_name fun s =>
      let s := { s with status := "completed", end_time := some now }
      if truthy s.start_time then
        { s with duration := some (now - s.start_time.getD 0) }
      else s
  else steps

/-! ## `documents.py` — data model of the per-document progress tracker

`app/models/response_models.py` defines pydantic models `SubStep` and
`ProcessingStep`; `app/api/routes/documents.py` keeps a `steps_dict` (ordered
dict name → `ProcessingStep`) in `process_document_background` and mutates it
through the nested `step_callback` (lines 694-995) and
`_group_small_substeps` (lines 608-692).
-/

/-- `app/models/response_models.py`, `SubStep`. -/
structure SubStep where
  name : String
  status : StepStatus
  start_time : Option ℚ
  end_time : Option ℚ
  duration : Option ℚ
deriving Repr, DecidableEq

/-- `app/models/response_models.py`, `ProcessingStep`. -/
structure ProcessingStep where
  name : String
  description : String
  status : StepStatus
  start_time : Option ℚ
  end_time : Option ℚ
  duration : Option ℚ
  sub_steps : Option (List String)
  sub_steps_detailed : Option (List SubStep)
  current_sub_step : Option String
deriving Repr, DecidableEq

/-- Python truthiness of an optional list (`None` and `[]` are falsy). -/
def truthyList {α : Type} : Option (List α) → Bool
  | none => false
  | some l => !l.isEmpty

/-- `ProcessingStep.start` (`response_models.py`): mark as started at `now`. -/
def ProcessingStep.start (s : ProcessingStep) (now : ℚ) : ProcessingStep :=
  { s with status := .in_progress, start_time := some now }

/-- `ProcessingStep.complete` (`response_models.py`): mark completed at `now`;
the duration is set only when `start_time` is truthy. -/
def ProcessingStep.complete (s : ProcessingStep) (now : ℚ) : ProcessingStep :=
  let s' : ProcessingStep := { s with status := .completed, end_time := some now }
  if truthy s'.start_time then
    { s' with duration := some (now - s'.start_time.getD 0) }
  else s'

/-- `ProcessingStep.fail` (`response_models.py`): mark failed at `now`. -/
def ProcessingStep.fail (s : ProcessingStep) (now : ℚ) : ProcessingStep :=
  let s' : ProcessingStep := { s with status := .failed, end_time := some now }
  if truthy s'.start_time then
    { s' with duration := some (now - s'.start_time.getD 0) }
  else s'

/-- The dynamically-typed third argument of `step_callback`
(`timestamp_or_substep: float | str | tuple | None`). -/
inductive CallbackArg where
  | noneArg : CallbackArg
  | num : ℚ → CallbackArg
  | str : String → CallbackArg
  | pair : String → ℚ → CallbackArg
deriving Repr, DecidableEq

/-- Python `isinstance(timestamp_or_substep, (int, float))`. -/
def CallbackArg.isNum : CallbackArg → Bool
  | .num _ => true
  | _ => false

/-- Python `timestamp_or_substep and isinstance(timestamp_or_substep, (int,
float))` (a numeric argument that is also truthy, i.e. nonzero). -/
def CallbackArg.truthyNum : CallbackArg → Bool
  | .num t => t != 0
  | _ => false

/-- The numeric value of the argument (only used under `isNum`). -/
def CallbackArg.numVal : CallbackArg → ℚ
  | .num t => t
  | _ => 0

/-- `documents.py` lines 728-755 (loop body of the tuple sub-step-completion
branch): the in-place update applied to the first sub-step whose name matches,
for the explicit end timestamp carried by the tuple. -/
def tupleUpdate (end_timestamp : ℚ) (s : SubStep) : SubStep :=
  if s.status = .in_progress then
    let s1 : SubStep := { s with status := .completed }
    if truthy s1.start_time then
      let s2 : SubStep :=
        if end_timestamp < s1.start_time.getD 0 then
          { s1 with start_time := some (end_timestamp - 0.001) }
        else s1
      { s2 with end_time := some end_timestamp,
                duration := some (max 0.001 (end_timestamp - s2.start_time.getD 0)) }
    else
      { s1 with start_time := some (end_timestamp - 0.001),
                end_time := some end_timestamp, duration := some 0.001 }
  else if s.status = .pending then
    { s with status := .completed, start_time := some (end_timestamp - 0.001),
             end_time := some end_timestamp, duration := some 0.001 }
  else if s.status = .completed then
    if s.end_time = none ∨ end_timestamp > s.end_time.getD 0 then
      if truthy s.start_time ∧ end_timestamp ≥ s.start_time.getD 0 then
        { s with end_time := some end_timestamp,
                 duration := some (max 0.001 (end_timestamp - s.start_time.getD 0)) }
      else s
    else s
  else s

/-- `documents.py` lines 726-756: walk the sub-step list, update the first
sub-step named `sub_step_name` (the Python loop `break`s there). -/
def completeNamedSub (subs : List SubStep) (sub_step_name : String)
    (end_timestamp : ℚ) : List SubStep :=
  match subs with
  | [] => []
  | s :: rest =>
      if s.name = sub_step_name then tupleUpdate end_timestamp s :: rest
      else s :: completeNamedSub rest sub_step_name end_timestamp

/-- `documents.py` lines 769-788: force-complete one previously `in_progress`
sub-step at `now` (applied to every element of the list; the
`completed_a_small_step` flag computed there is never read afterwards by the
source and is omitted). -/
def completeInProgressSub (now : ℚ) (s : SubStep) : SubStep :=
  if s.status = .in_progress then
    let s1 : SubStep := { s with status := .completed, end_time := some now }
    if truthy s1.start_time then
      if now ≥ s1.start_time.getD 0 then
        { s1 with duration := some (now - s1.start_time.getD 0) }
      else
        { s1 with start_time := some (now - 0.001), duration := some 0.001 }
    else
      { s1 with start_time := some (now - 0.001), duration := some 0.001 }
  else s

/-- Update the first element whose name is `n` (later elements untouched). -/
def updateFirstNamed (subs : List SubStep) (n : String) (f : SubStep → SubStep) :
    List SubStep :=
  match subs with
  | [] => []
  | s :: rest =>
      if s.name = n then f s :: rest else s :: updateFirstNamed rest n f

/-- `documents.py` lines 790-812: find the named sub-step and restart it
(`pending`/`completed` → `in_progress` with fresh `start_time`, timing
cleared), or append a new `in_progress` sub-step. -/
def startSubStep (subs : List SubStep) (n : String) (now : ℚ) : List SubStep :=
  if subs.any (fun s => s.name = n) then
    updateFirstNamed subs n fun s =>
      if s.status = .pending ∨ s.status = .completed then
        { s with status := .in_progress, start_time := some now,
                 end_time := none, duration := none }
      else s
  else
    subs ++ [{ name := n, status := .in_progress, start_time := some now,
               end_time := none, duration := none }]

/-- `documents.py` lines 759-824 (`elif isinstance(timestamp_or_substep,
str)`): start a named sub-step — initialize `sub_steps_detailed`, complete
every previously `in_progress` sub-step, find-or-create the target, record
`current_sub_step`, and append the name to the legacy `sub_steps` list. -/
def strBranch (step : ProcessingStep) (sub_step_name : String) (now : ℚ) :
    ProcessingStep :=
  let step1 : ProcessingStep :=
    if step.sub_steps_detailed = none then
      { step with sub_steps_detailed := some [] }
    else step
  let subs := (step1.sub_steps_detailed.getD []).map (completeInProgressSub now)
  let subs := startSubStep subs sub_step_name now
  let step2 : ProcessingStep :=
    { step1 with sub_steps_detailed := some subs,
                 current_sub_step := some sub_step_name }
  let step3 : ProcessingStep :=
    if step2.sub_steps = none then { step2 with sub_steps := some [] } else step2
  if sub_step_name ∈ step3.sub_steps.getD [] then step3
  else { step3 with sub_steps := some (step3.sub_steps.getD [] ++ [sub_step_name]) }

/-- `documents.py` lines 839-853: in the (unreachable) main-step `completed`
arm, force-complete one `in_progress` sub-step at `completion_time`. -/
def completeAtTime (completion_time : ℚ) (s : SubStep) : SubStep :=
  if s.status = .in_progress then
    let s1 : SubStep := { s with status := .completed }
    if truthy s1.start_time then
      let s2 : SubStep :=
        if completion_time < s1.start_time.getD 0 then
          { s1 with start_time := some (completion_time - 0.001) }
        else s1
      { s2 with end_time := some completion_time,
                duration := some (max 0.001 (completion_time - s2.start_time.getD 0)) }
    else
      { s1 with start_time := some (completion_time - 0.001),
                end_time := some completion_time, duration := some 0.001 }
  else s

/-- `documents.py` lines 859-868: fix a non-positive recorded sub-step
duration in place. -/
def fixDuration (s : SubStep) : SubStep :=
  match s.duration with
  | none => s
  | some d =>
      if d ≤ 0 then
        if truthy s.start_time ∧ truthy s.end_time ∧
            s.end_time.getD 0 > s.start_time.getD 0 then
          { s with duration := some (s.end_time.getD 0 - s.start_time.getD 0) }
        else { s with duration := some 0.001 }
      else s

/-- `documents.py` lines 825-920: the `elif status == "in_progress" /
"completed" / "failed"` arms.  In the source these `elif`s continue the chain
that starts with the `isinstance` checks *inside* the `status == "sub_step"`
branch, so they are reached only when `status == "sub_step"` and the argument
is neither a tuple nor a string — and then every comparison below is false.
They are embedded as written. -/
def deadMainStatusBranch (step : ProcessingStep) (status : String)
    (arg : CallbackArg) (now : ℚ) : ProcessingStep :=
  if status = "in_progress" then
    if arg.truthyNum then
      { step with status := .in_progress, start_time := some arg.numVal }
    else step.start now
  else if status = "completed" then
    let completion_time := if arg.isNum then arg.numVal else now
    let completedSubs :=
      (step.sub_steps_detailed.getD []).map (completeAtTime completion_time)
    let stepA : ProcessingStep :=
      if truthyList step.sub_steps_detailed then
        { step with sub_steps_detailed := some completedSubs }
      else step
    let stepB : ProcessingStep :=
      if truthyList stepA.sub_steps_detailed then
        let fixedSubs := (stepA.sub_steps_detailed.getD []).map fixDuration
        let total := (fixedSubs.filterMap SubStep.duration).sum
        let stepA := { stepA with sub_steps_detailed := some fixedSubs }
        if arg.truthyNum then
          let stepC : ProcessingStep :=
            { stepA with status := .completed, end_time := some arg.numVal }
          if truthy stepC.start_time then { stepC with duration := some total }
          else { stepC with start_time := some (arg.numVal - total),
                            duration := some total }
        else
          let stepC : ProcessingStep :=
            { stepA.complete now with duration := some total }
          if truthy stepC.start_time then
            { stepC with end_time := some (stepC.start_time.getD 0 + total) }
          else stepC
      else
        if arg.truthyNum then
          let stepC : ProcessingStep :=
            { stepA with status := .completed, end_time := some arg.numVal }
          let d1 := max 0.001 (arg.numVal - stepC.start_time.getD 0)
          if truthy stepC.start_time then
            { stepC with duration := some d1 }
          else { stepC with start_time := some (arg.numVal - 0.001),
                            duration := some 0.001 }
        else
          let stepC := stepA.complete now
          let d2 := max 0.001 (stepC.end_time.getD 0 - stepC.start_time.getD 0)
          if stepC.duration = none ∨ stepC.duration.getD 0 ≤ 0 then
            if truthy stepC.start_time ∧ truthy stepC.end_time then
              { stepC with duration := some d2 }
            else if truthy stepC.start_time then
              { stepC with end_time := some now,
                           duration := some (max 0.001 (now - stepC.start_time.getD 0)) }
            else { stepC with duration := some 0.001 }
          else stepC
    { stepB with current_sub_step := none }
  else if status = "failed" then
    if arg.truthyNum then
      let stepA : ProcessingStep :=
        { step with status := .failed, end_time := some arg.numVal }
      if truthy stepA.start_time then
        { stepA with duration := some (arg.numVal - stepA.start_time.getD 0) }
      else stepA
    else step.fail now
  else step

/-- `documents.py` lines 959-972: legacy per-sub-step duration refresh run at
the end of every `step_callback` call. -/
def recalcSub (now : ℚ) (s : SubStep) : SubStep :=
  if s.status = .in_progress ∧ truthy s.start_time then
    let pd := now - s.start_time.getD 0
    if pd > 0 then { s with duration := some pd } else s
  else if s.status = .completed ∧ s.duration = none then
    if truthy s.start_time ∧ truthy s.end_time then
      { s with duration := some (max 0.001 (s.end_time.getD 0 - s.start_time.getD 0)) }
    else if truthy s.start_time then
      { s with end_time := some now,
               duration := some (max 0.001 (now - s.start_time.getD 0)) }
    else s
  else s

/-- `documents.py` lines 925-972: per-step duration refresh run on every step
at the end of every `step_callback` call — real-time duration for
`in_progress` steps, recomputed duration for `completed` steps, then the
legacy sub-step refresh. -/
def recalcStep (now : ℚ) (step : ProcessingStep) : ProcessingStep :=
  let step1 : ProcessingStep :=
    if step.status = .in_progress then
      if truthy step.start_time then
        { step with duration := some (max 0.001 (now - step.start_time.getD 0)) }
      else if step.duration = none then { step with duration := some 0.001 }
      else step
    else if step.status = .completed then
      if truthy step.start_time ∧ truthy step.end_time then
        { step with duration := some (max 0.001 (step.end_time.getD 0 - step.start_time.getD 0)) }
      else if truthy step.start_time then
        if step.end_time = none then
          { step with end_time := some now,
                      duration := some (max 0.001 (now - step.start_time.getD 0)) }
        else
          let e := if truthy step.end_time then step.end_time.getD 0 else now
          { step with duration := some (max 0.001 (e - step.start_time.getD 0)) }
      else if truthy step.end_time then { step with duration := some 0.001 }
      else if step.duration = none ∨ step.duration.getD 0 ≤ 0 then
        { step with duration := some 0.001 }
      else step
    else step
  let refreshed := (step1.sub_steps_detailed.getD []).map (recalcSub now)
  if truthyList step1.sub_steps_detailed then
    { step1 with sub_steps_detailed := some refreshed }
  else step1

/-- `documents.py` lines 977-989: the serialized copy of a step written to
Redis (`model_dump` plus a defaulted positive duration).  All `time.time()`
reads within one callback are modelled as the same instant `now`. -/
def serializeStep (now : ℚ) (step : ProcessingStep) : ProcessingStep :=
  if step.duration = none ∨ step.duration.getD 0 ≤ 0 then
    if truthy step.start_time ∧ truthy step.end_time then
      { step with duration := some (max 0.001 (step.end_time.getD 0 - step.start_time.getD 0)) }
    else if truthy step.start_time then
      { step with duration := some (max 0.001 (now - step.start_time.getD 0)) }
    else { step with duration := some 0.001 }
  else step

/-- The `steps_dict` of `process_document_background` (insertion-ordered). -/
abbrev StepsDict := List (String × ProcessingStep)

/-- A fresh dynamically-discovered step (`documents.py` lines 709-713). -/
def mkPendingStep (step_name : String) : ProcessingStep :=
  { name := step_name, description := step_name, status := .pending,
    start_time := none, end_time := none, duration := none,
    sub_steps := none, sub_steps_detailed := none, current_sub_step := none }

/-- `step_callback(step_name, status, timestamp_or_substep)` from
`app/api/routes/documents.py` (lines 694-995).  Returns the updated
`steps_dict` together with the serialized step list written to the Shared
Store by `redis_service.update_job`.  The callback creates missing steps as
`pending`, handles `"sub_step"` events (tuple completion / string start —
with the main-step status arms nested unreachably inside, see
`deadMainStatusBranch`), then refreshes durations and serializes. -/
def step_callback (steps_dict : StepsDict) (step_name status : String)
    (arg : CallbackArg) (now : ℚ) : StepsDict × List ProcessingStep :=
  let d0 : StepsDict :=
    if (assocFind steps_dict step_name).isSome then steps_dict
    else steps_dict ++ [(step_name, mkPendingStep step_name)]
  let d1 : StepsDict :=
    if status = "sub_step" then
      assocSet d0 step_name fun step =>
        match arg with
        | .pair sub_step_name end_timestamp =>
            let subs := completeNamedSub (step.sub_steps_detailed.getD [])
              sub_step_name end_timestamp
            if truthyList step.sub_steps_detailed then
              { step with sub_steps_detailed := some subs }
            else step
        | .str sub_step_name => strBranch step sub_step_name now
        | other => deadMainStatusBranch step status other now
    else d0
  let d2 : StepsDict := d1.map fun p => (p.1, recalcStep now p.2)
  (d2, d2.map fun p => serializeStep now p.2)

/-! ## `documents.py` — `_group_small_substeps` (lines 608-692) -/

/-- The name of the synthetic summary sub-step
(`MACRO_STEP_NAME` in the source). -/
def QUICK_STEP_NAME : String := "⚡ Initialization and quick operations"

/-- Python `list.remove(x)`: drop the first element equal to `x`. -/
def removeFirstEq (subs : List SubStep) (x : SubStep) : List SubStep :=
  match subs with
  | [] => []
  | s :: rest => if s = x then rest else s :: removeFirstEq rest x

/-- The last element named `n` (the source loop overwrites `existing_macro`
on every match without breaking, so the last match wins). -/
def lastNamed (subs : List SubStep) (n : String) : Option SubStep :=
  (subs.filter fun s => s.name = n).getLast?

/-- Update the last element named `n` in place. -/
def updateLastNamed (subs : List SubStep) (n : String) (f : SubStep → SubStep) :
    List SubStep :=
  match subs with
  | [] => []
  | s :: rest =>
      if rest.any (fun t => t.name = n) then s :: updateLastNamed rest n f
      else if s.name = n then f s :: rest
      else s :: updateLastNamed rest n f

/-- The sort key of `documents.py` line 676:
`s.start_time if s.start_time else float('inf')` — a falsy (missing or zero)
`start_time` sorts last. -/
def sortKey (s : SubStep) : Option ℚ :=
  if truthy s.start_time then some (s.start_time.getD 0) else none

/-- `key a <= key b` with `none` as plus infinity (Python `sorted` order). -/
def subStepSortLE (a b : SubStep) : Bool :=
  match sortKey a, sortKey b with
  | some x, some y => x ≤ y
  | some _, none => true
  | none, some _ => false
  | none, none => true

/-- `_group_small_substeps(step)` from `app/api/routes/documents.py` (lines
608-692): collect completed sub-steps with a recorded duration under the
10 ms threshold (skipping the synthetic one), and create or refresh the
synthetic "quick operations" sub-step summarizing them — the small originals
are kept; finally the list is stably re-sorted by `start_time` and the
legacy `sub_steps` name list gains the synthetic name. -/
def group_small_substeps (step : ProcessingStep) : ProcessingStep :=
  if ¬ truthyList step.sub_steps_detailed then step
  else
    let subs := step.sub_steps_detailed.getD []
    let existingQuick := lastNamed subs QUICK_STEP_NAME
    let small := subs.filter fun s =>
      s.name ≠ QUICK_STEP_NAME ∧ s.status = .completed ∧
        s.duration ≠ none ∧ s.duration.getD 0 < 0.01
    if small.isEmpty then
      match existingQuick with
      | some m => { step with sub_steps_detailed := some (removeFirstEq subs m) }
      | none => step
    else
      let total0 := (small.filterMap SubStep.duration).sum
      let start_times0 := small.filterMap SubStep.start_time
      let end_times0 := small.filterMap SubStep.end_time
      let subs1 :=
        match existingQuick with
        | some m =>
            let start_times := start_times0 ++
              (if truthy m.start_time then [m.start_time.getD 0] else [])
            let end_times := end_times0 ++
              (if truthy m.end_time then [m.end_time.getD 0] else [])
            let total := total0 + (if truthy m.duration then m.duration.getD 0 else 0)
            updateLastNamed subs QUICK_STEP_NAME fun mm =>
              { mm with start_time := start_times.min?, end_time := end_times.max?,
                        duration := some (max total 0.001), status := .completed }
        | none =>
            let quickStep : SubStep :=
              { name := QUICK_STEP_NAME, status := .completed,
                start_time := start_times0.min?, end_time := end_times0.max?,
                duration := some (max total0 0.001) }
            quickStep :: subs
      let sortedSubs := subs1.mergeSort subStepSortLE
      let step1 : ProcessingStep :=
        { step with sub_steps_detailed := some sortedSubs }
      if truthyList step1.sub_steps ∧ QUICK_STEP_NAME ∉ step1.sub_steps.getD [] then
        { step1 with sub_steps := some (QUICK_STEP_NAME :: step1.sub_steps.getD []) }
      else step1

/-! ## `extraction_queue_service.py` — the work queue

`ExtractionQueueService` keys: `extraction:processing` (the Lock, TTL
`LOCK_TIMEOUT = 3600`), `extraction:queue` (FIFO list, `rpush`/`lpop`) and
`extraction:job:{id}` (payload, TTL 3600).  Payloads are stored as JSON of the
job dict; the store round-trip is modelled as the structured payload itself.
`redis` string answers are decoded transparently (`decode_responses` /
explicit `.decode`), so keys and values are plain strings here.
-/

/-- The job dict enqueued by the submission route and read back by
`process_queued_extraction` (only the fields the worker control flow
reads are listed; the remaining entries ride along opaquely). -/
structure JobPayload where
  execution_id : String
  flow_id : Option String
  document_url : Option String
  file_content : Option String
  file_name : Option String
  extraction_schema : Option String
  introduction : Option String
deriving Repr, DecidableEq

/-- The Shared-Store state owned by the queue service. -/
structure QueueState where
  processing : Option String
  processing_ttl : Option ℕ
  queue : List String
  jobData : List (String × JobPayload)
deriving Repr, DecidableEq

/-- `LOCK_TIMEOUT` (`extraction_queue_service.py`). -/
def LOCK_TIMEOUT : ℕ := 3600

/-- Primitive: `redis.get(PROCESSING_KEY)`. -/
def redisGetLock (s : QueueState) : Option String := s.processing

/-- Primitive: `redis.lpop(QUEUE_KEY)` (head of the FIFO list). -/
def redisLpop (s : QueueState) : Option String × QueueState :=
  match s.queue with
  | [] => (none, s)
  | job_id :: rest => (some job_id, { s with queue := rest })

/-- Primitive: `redis.get(f"extraction:job:{job_id}")` (`jobData` is keyed by
the job id; the constant key prefix is left implicit). -/
def redisGetPayload (s : QueueState) (job_id : String) : Option JobPayload :=
  assocFind s.jobData job_id

/-- Primitive: `redis.setex(PROCESSING_KEY, LOCK_TIMEOUT, job_id)`. -/
def redisSetLock (s : QueueState) (job_id : String) : QueueState :=
  { s with processing := some job_id, processing_ttl := some LOCK_TIMEOUT }

/-- Remove a key from an association list (`redis.delete`). -/
def assocErase {β : Type} (m : List (String × β)) (k : String) :
    List (String × β) :=
  match m with
  | [] => []
  | (k', v) :: rest =>
      if k' = k then assocErase rest k else (k', v) :: assocErase rest k

/-- `get_next_job` (`extraction_queue_service.py` lines 75-125): return `none`
while the Lock exists; otherwise pop the queue head, load its payload
(returning `none` if the payload key is gone), and set the Lock before
returning the payload.  Each primitive is a separate awaited Redis command —
the composition below is their *sequential* execution. -/
def get_next_job (s : QueueState) : Option JobPayload × QueueState :=
  match redisGetLock s with
  | some _ => (none, s)
  | none =>
      match redisLpop s with
      | (none, s1) => (none, s1)
      | (some job_id, s1) =>
          match redisGetPayload s1 job_id with
          | none => (none, s1)
          | some payload => (some payload, redisSetLock s1 job_id)

/-- `mark_job_complete` (`extraction_queue_service.py` lines 127-144): delete
the Lock and the job payload key (the `success` flag only affects logging). -/
def mark_job_complete (s : QueueState) (job_id : String) : QueueState :=
  { s with processing := none, processing_ttl := none,
           jobData := assocErase s.jobData job_id }

/-- `enqueue_job` (`extraction_queue_service.py` lines 50-73): store the
payload under the job id, then append the id to the FIFO list. -/
def enqueue_job (s : QueueState) (p : JobPayload) : String × QueueState :=
  let job_id := p.execution_id
  (job_id, { s with jobData := (job_id, p) :: assocErase s.jobData job_id,
                    queue := s.queue ++ [job_id] })

/-! ## `redis_service.py`, `flow_service.py`, `extract_worker.py` -/

/-- The methods the `RedisService` class (`app/services/redis_service.py`)
actually defines.  Python attribute lookup on a `RedisService` instance for
any other name raises `AttributeError`. -/
def RedisServiceMethods : List String :=
  ["__init__", "store_job", "get_job", "update_job", "publish_job_update",
   "subscribe_job_updates", "delete_job", "list_jobs", "ping"]

/-- Python truthiness of an optional string (`None` and `""` are falsy). -/
def truthyStr : Option String → Bool
  | none => false
  | some s => !s.isEmpty

/-- Value of a hex digit (≥ 16 marks a non-hex character). -/
def hexVal (c : Char) : ℕ :=
  if 48 ≤ c.toNat ∧ c.toNat ≤ 57 then c.toNat - 48
  else if 97 ≤ c.toNat ∧ c.toNat ≤ 102 then c.toNat - 87
  else if 65 ≤ c.toNat ∧ c.toNat ≤ 70 then c.toNat - 55
  else 256

/-- Whole two-digit bytes, with spaces allowed between bytes but not inside
one (`none` on a stray digit or a non-hex character). -/
def fromhexChars : List Char → Option (List ℕ)
  | [] => some []
  | c :: rest =>
      if c = ' ' then fromhexChars rest
      else
        match rest with
        | [] => none
        | d :: rest2 =>
            if hexVal c < 16 ∧ hexVal d < 16 then
              (fromhexChars rest2).map fun l => (16 * hexVal c + hexVal d) :: l
            else none

/-- Python `bytes.fromhex`; `none` models the `ValueError` it raises on
malformed input. -/
def bytesFromHex (h : String) : Option (List ℕ) :=
  fromhexChars h.toList

/-- `app/models/database_models.py`, `FlowExecution` — the Execution-Store
record (fields the orchestration code touches). -/
structure FlowExecution where
  id : String
  status : String
  extracted_data : Option String
  error_message : Option String
  processing_time : Option ℚ
  completed_at : Option ℚ
deriving Repr, DecidableEq

/-- The Execution Store, keyed by execution id. -/
abbrev DB := List (String × FlowExecution)

/-- `FlowService.update_execution` (`app/services/flow_service.py` lines
239-277): set `status` unconditionally, merge the optional fields that are
not `None`, and stamp `completed_at` when the new status is terminal. -/
def update_execution (execution : FlowExecution) (status : String)
    (extracted_data : Option String) (error_message : Option String)
    (processing_time : Option ℚ) (now : ℚ) : FlowExecution :=
  let e1 : FlowExecution := { execution with status := status }
  let e2 : FlowExecution :=
    match extracted_data with
    | some d => { e1 with extracted_data := some d }
    | none => e1
  let e3 : FlowExecution :=
    match error_message with
    | some m => { e2 with error_message := some m }
    | none => e2
  let e4 : FlowExecution :=
    match processing_time with
    | some t => { e3 with processing_time := some t }
    | none => e3
  if status = "completed" ∨ status = "failed" then
    { e4 with completed_at := some now }
  else e4

/-- Observable events of one worker pass (used to state ordering facts). -/
inductive Ev where
  | redisCall (method : String)
  | attrError (method : String)
  | engineParse
  | engineLLM
  | dbWrite (execution_id : String) (status : String)
  | release (job_id : String)
deriving Repr, DecidableEq

/-- Outcomes of the external collaborators during one job. -/
structure WorkerEnv where
  download_ok : Bool
  save_ok : Bool
  parse_ok : Bool
  llm_ok : Bool
  parse_text : String
  elapsed : ℚ
  now : ℚ
deriving Repr, DecidableEq

/-- Result of a straight-line Python fragment: normal value or a propagating
exception, with the Execution Store and the trace of events so far. -/
abbrev PR (α : Type) := Except String α × DB × List Ev

/-- Events of one `redis_service.<m>(...)` call: the attempt, plus the
`AttributeError` when the class does not define `m`. -/
def redisCallEvents (m : String) : List Ev :=
  if m ∈ RedisServiceMethods then [Ev.redisCall m]
  else [Ev.redisCall m, Ev.attrError m]

/-- `flow_service.update_execution` applied through a DB lookup (the source
passes the fetched ORM object; the write lands on the row with that id). -/
def dbUpdateExecution (db : DB) (id status : String)
    (extracted_data error_message : Option String) (processing_time : Option ℚ)
    (now : ℚ) : DB :=
  assocSet db id fun ex =>
    update_execution ex status extracted_data error_message processing_time now

/-- `process_queued_extraction`, statements after the initial
`redis_service.store_execution` call (`extract_worker.py` lines 120-210):
file acquisition, the `processing` status update, the engine calls, the
`completed` update, and the final `redis_service.update_execution` call.
Unreachable in execution (the call before it always raises), embedded for
faithfulness. -/
def pqe_rest (env : WorkerEnv) (payload : JobPayload)
    (file_content : Option (List ℕ)) (db : DB) (tr : List Ev) : PR Unit :=
  -- Get file: URL download, or saved upload, else ValueError.
  let fileOk :=
    if truthyStr payload.document_url then env.download_ok
    else if (file_content.getD []).length ≠ 0 ∧ truthyStr payload.file_name then
      env.save_ok
    else false
  if truthyStr payload.document_url ∧ ¬ env.download_ok then
    (.error "download failed", db, tr)
  else if ¬ truthyStr payload.document_url ∧
      ((file_content.getD []).length = 0 ∨ ¬ truthyStr payload.file_name) then
    (.error "ValueError: Neither document_url nor file_content provided", db, tr)
  else if ¬ fileOk then (.error "save failed", db, tr)
  else
    -- Update status to processing (when the execution row exists), commit.
    let (db1, tr1) :=
      match assocFind db payload.execution_id with
      | some _ =>
          (dbUpdateExecution db payload.execution_id "processing" none none none env.now,
           tr ++ [Ev.dbWrite payload.execution_id "processing"])
      | none => (db, tr)
    -- OCR processing.
    let tr2 := tr1 ++ [Ev.engineParse]
    if ¬ env.parse_ok then (.error "parse failed", db1, tr2)
    else
      -- LLM analysis.
      let tr3 := tr2 ++ [Ev.engineLLM]
      if ¬ env.llm_ok then (.error "llm failed", db1, tr3)
      else
        -- Update with results (when the execution row exists), commit.
        let (db2, tr4) :=
          match assocFind db1 payload.execution_id with
          | some _ =>
              (dbUpdateExecution db1 payload.execution_id "completed"
                 (some "extracted") none (some env.elapsed) env.now,
               tr3 ++ [Ev.dbWrite payload.execution_id "completed"])
          | none => (db1, tr3)
        -- redis_service.update_execution(...) — not wrapped: propagates.
        let tr5 := tr4 ++ redisCallEvents "update_execution"
        if "update_execution" ∈ RedisServiceMethods then (.ok (), db2, tr5)
        else (.error "AttributeError: update_execution", db2, tr5)

/-- The `try` block of `process_queued_extraction` (`extract_worker.py` lines
117-210).  Its first statement is
`redis_service.store_execution(execution_id, {"steps": [], "current_step":
None})`, a method `RedisService` does not define. -/
def pqe_try_body (env : WorkerEnv) (payload : JobPayload)
    (file_content : Option (List ℕ)) (db : DB) : PR Unit :=
  let tr := redisCallEvents "store_execution"
  if "store_execution" ∈ RedisServiceMethods then
    pqe_rest env payload file_content db tr
  else
    (.error "AttributeError: store_execution", db, tr)

/-- `process_queued_extraction(job_data, ...)` (`extract_worker.py` lines
86-232): hex-decode `file_content` (before the `try`, so a decode failure
propagates), run the `try` body, and on any exception run the handler that
marks the execution `failed` (inner `try/except`) and attempts
`redis_service.update_execution` (inner `try/except`, so its
`AttributeError` is swallowed); the handler itself returns normally. -/
def process_queued_extraction (env : WorkerEnv) (payload : JobPayload)
    (db : DB) : PR Unit :=
  let decoded : Except String (Option (List ℕ)) :=
    match payload.file_content with
    | none => .ok none
    | some h =>
        match bytesFromHex h with
        | some b => .ok (some b)
        | none => .error "ValueError: non-hexadecimal number found in fromhex"
  match decoded with
  | .error e => (.error e, db, [])
  | .ok file_content =>
      match pqe_try_body env payload file_content db with
      | (.ok _, db1, tr) => (.ok (), db1, tr)
      | (.error e, db1, tr) =>
          let (db2, tr2) :=
            match assocFind db1 payload.execution_id with
            | some _ =>
                (dbUpdateExecution db1 payload.execution_id "failed"
                   none (some e) none env.now,
                 tr ++ [Ev.dbWrite payload.execution_id "failed"])
            | none => (db1, tr)
          (.ok (), db2, tr2 ++ redisCallEvents "update_execution")

/-- What one pass of the worker `while` body does next. -/
inductive LoopAction where
  | next
  | stop
deriving Repr, DecidableEq

/-- One pass of the `while True` body of `extraction_worker`
(`extract_worker.py` lines 36-83): poll `get_next_job`; with no payload,
sleep and continue; with a payload, run `process_queued_extraction` under
`try/except Exception` and release the lock in the `finally` (itself guarded
by an inner `try/except`), then continue.  Task cancellation
(`asyncio.CancelledError`, the deliberate shutdown path) is outside this
sequential model. -/
def extraction_worker_iteration (env : WorkerEnv) (q : QueueState) (db : DB) :
    LoopAction × QueueState × DB × List Ev :=
  match get_next_job q with
  | (none, q1) => (.next, q1, db, [])
  | (some payload, q1) =>
      let r := process_queued_extraction env payload db
      let q2 := mark_job_complete q1 payload.execution_id
      (.next, q2, r.2.1, r.2.2 ++ [Ev.release payload.execution_id])

/-! ## `documents.py` — SSE `event_generator` (lines 282-393)

The stream polls the job key every 200 ms and emits an event when the status,
`updated_at`, or an md5 hash of the canonically-serialized steps changes.  The
hash comparison is modelled as comparison of the serialized steps themselves
(`stepsJson`): equal strings hash equal, and the change detector only ever
compares hashes of such strings.
-/

/-- The fields of the stored job dict the stream loop reads. -/
structure LiveState where
  status : Option String
  updated_at : Option ℚ
  stepsJson : String
deriving Repr, DecidableEq

/-- The loop-carried variables of `event_generator`. -/
structure SSEPollState where
  last_updated_at : Option ℚ
  last_status : Option String
  last_steps : Option String
  consecutive_no_change : ℕ
deriving Repr, DecidableEq

/-- `max_no_change = 10` (`documents.py` line 291). -/
def max_no_change : ℕ := 10

/-- `current_status in [JobStatus.COMPLETED.value, JobStatus.FAILED.value,
JobStatus.CANCELLED.value]`. -/
def isTerminalStatus (s : Option String) : Bool :=
  s = some "completed" ∨ s = some "failed" ∨ s = some "cancelled"

/-- Frames the stream can emit during one poll. -/
inductive SSEFrame where
  | data (status : Option String)
  | keepalive
  | notFound
deriving Repr, DecidableEq

/-- Result of one poll: the stream closes, or carries on with a new state. -/
inductive SSEOut where
  | close (frames : List SSEFrame)
  | again (st : SSEPollState) (frames : List SSEFrame)
deriving Repr, DecidableEq

/-- One iteration of the `while True` poll loop of `event_generator`
(`documents.py` lines 336-393): missing job ⇒ error frame and close; a
change in status / `updated_at` / steps hash ⇒ emit and reset the no-change
counter, closing when the status is terminal; no change ⇒ bump the counter,
emit a keepalive and *reset the counter to zero* once it reaches 25, and
stop when the counter reaches `max_no_change * 50` while the status is
neither `processing` nor `pending`. -/
def sse_poll_step (st : SSEPollState) (job_data : Option LiveState) : SSEOut :=
  match job_data with
  | none => .close [.notFound]
  | some jd =>
      if jd.updated_at ≠ st.last_updated_at ∨ jd.status ≠ st.last_status ∨
          some jd.stepsJson ≠ st.last_steps then
        let st1 : SSEPollState :=
          { last_updated_at := jd.updated_at, last_status := jd.status,
            last_steps := some jd.stepsJson, consecutive_no_change := 0 }
        if isTerminalStatus jd.status then .close [.data jd.status]
        else .again st1 [.data jd.status]
      else
        let cnc := st.consecutive_no_change + 1
        let cnc1 := if cnc ≥ 25 then 0 else cnc
        let frames : List SSEFrame := if cnc ≥ 25 then [.keepalive] else []
        if cnc1 ≥ max_no_change * 50 ∧
            ¬ (jd.status = some "processing" ∨ jd.status = some "pending") then
          .close frames
        else .again { st with consecutive_no_change := cnc1 } frames

/-- The loop state right after the initial snapshot was emitted
(`documents.py` lines 294-347): `last_*` seeded from the snapshot when one was
found within the bounded retries, otherwise left at their initial `None`s
(after the `pending` placeholder is sent). -/
def sse_initial_state (initial : Option LiveState) : SSEPollState :=
  match initial with
  | some d =>
      { last_updated_at := d.updated_at, last_status := d.status,
        last_steps := some d.stepsJson, consecutive_no_change := 0 }
  | none =>
      { last_updated_at := none, last_status := none, last_steps := none,
        consecutive_no_change := 0 }

/-- Run `n` polls against a constant stored job value; `some st` means the
stream is still open with loop state `st`. -/
def sse_poll_iter (jd : Option LiveState) : SSEPollState → ℕ → Option SSEPollState
  | st, 0 => some st
  | st, n + 1 =>
      match sse_poll_step st jd with
      | .close _ => none
      | .again st1 _ => sse_poll_iter jd st1 n

/-- Apply a list of `(step_name, status, now)` events through `update_step`. -/
def update_step_run (events : List (String × String × ℚ)) : ExtractSteps :=
  events.foldl (fun st e => update_step st e.1 e.2.1 e.2.2) []

/-- Statuses of all steps currently `in_progress`. -/
def inProgressNames (steps : ExtractSteps) : List String :=
  (steps.filter (fun p => p.2.status = "in_progress")).map (·.1)

/-- Status of the step named `n` in a `steps_dict` snapshot. -/
def statusOf (d : StepsDict) (n : String) : Option StepStatus :=
  (assocFind d n).map ProcessingStep.status

/-- The payload's `file_content` field is absent or valid hex — true of every
payload the submission route enqueues (it hex-encodes real bytes). -/
def hexOk (p : JobPayload) : Bool :=
  match p.file_content with
  | none => true
  | some h => (bytesFromHex h).isSome

/-- Is this event a lock release? -/
def isReleaseEv : Ev → Bool
  | .release _ => true
  | _ => false

/-- Number of `mark_job_complete` calls recorded in a trace. -/
def countReleases (tr : List Ev) : ℕ := (tr.filter isReleaseEv).length

/-! ### Concrete inputs used by witnesses and counterexamples -/

/-- A minimal job payload (URL submission). -/
def payloadW : JobPayload :=
  { execution_id := "j1", flow_id := some "f1",
    document_url := some "http://x/doc.pdf", file_content := none,
    file_name := none, extraction_schema := some "{}", introduction := none }

/-- A second minimal job payload. -/
def payloadW2 : JobPayload := { payloadW with execution_id := "j2" }

/-- Queue with two waiting jobs and no Lock. -/
def queueTwoJobs : QueueState :=
  { processing := none, processing_ttl := none, queue := ["j1", "j2"],
    jobData := [("j1", payloadW), ("j2", payloadW2)] }

/-- Queue with one waiting job and no Lock. -/
def queueOneJob : QueueState :=
  { processing := none, processing_ttl := none, queue := ["j1"],
    jobData := [("j1", payloadW)] }

/-- Queue whose head job id has no payload key (expired or deleted). -/
def queueOrphanHead : QueueState :=
  { processing := none, processing_ttl := none, queue := ["j1"],
    jobData := [] }

/-- A pending Execution-Store row. -/
def pendingExec : FlowExecution :=
  { id := "e1", status := "pending", extracted_data := none,
    error_message := none, processing_time := none, completed_at := none }

/-- A completed Execution-Store row. -/
def completedExec : FlowExecution :=
  { id := "e1", status := "completed", extracted_data := some "d",
    error_message := none, processing_time := some 2, completed_at := some 10 }

/-- A benign collaborator environment (everything succeeds). -/
def envOk : WorkerEnv :=
  { download_ok := true, save_ok := true, parse_ok := true, llm_ok := true,
    parse_text := "text", elapsed := 1, now := 100 }

/-- A payload whose `file_content` is not valid hex, so `bytes.fromhex`
raises before the job body's own exception handler is in scope. -/
def badHexPayload : JobPayload :=
  { execution_id := "e1", flow_id := none, document_url := none,
    file_content := some "zz", file_name := some "f.pdf",
    extraction_schema := none, introduction := none }

/-- Queue holding the bad-hex job. -/
def queueBadHex : QueueState :=
  { processing := none, processing_ttl := none, queue := ["e1"],
    jobData := [("e1", badHexPayload)] }

/-- Execution store holding the pending row for the bad-hex job. -/
def dbPending : DB := [("e1", pendingExec)]

/-- A stored job value stuck at `pending` and never changing. -/
def pendingLS : LiveState :=
  { status := some "pending", updated_at := some 5, stepsJson := "[]" }

/-- The completed sub-steps under the 10 ms threshold (the `small_completed_steps`
collected by `_group_small_substeps`, stated over a plain sub-step list). -/
def smallOf (subs : List SubStep) : List SubStep :=
  subs.filter fun s =>
    s.name ≠ QUICK_STEP_NAME ∧ s.status = .completed ∧
      s.duration ≠ none ∧ s.duration.getD 0 < 0.01

/-- The synthetic "quick operations" sub-step `_group_small_substeps` creates
on its first run over `subs`. -/
def quickStepOf (subs : List SubStep) : SubStep :=
  { name := QUICK_STEP_NAME, status := .completed,
    start_time := ((smallOf subs).filterMap SubStep.start_time).min?,
    end_time := ((smallOf subs).filterMap SubStep.end_time).max?,
    duration := some (max ((smallOf subs).filterMap SubStep.duration).sum 0.001) }

/-- Pending Execution-Store row for job `j1`. -/
def pendingExecJ1 : FlowExecution :=
  { id := "j1", status := "pending", extracted_data := none,
    error_message := none, processing_time := none, completed_at := none }

/-- Execution store holding the pending row for job `j1`. -/
def dbJ1 : DB := [("j1", pendingExecJ1)]

/-- An `extract.py` step already in progress (for witnesses). -/
def stepA : ExtractStep :=
  { name := "A", status := "in_progress", start_time := some 1,
    end_time := none, duration := none }

/-- A completed sub-step whose duration (0.5 ms) is under the 10 ms
threshold but under the 1 ms macro floor as well. -/
def subSmall : SubStep :=
  { name := "layout", status := .completed, start_time := some 1,
    end_time := some (1 + 0.0005), duration := some 0.0005 }

/-- A completed step holding only `subSmall`. -/
def stepWithSmall : ProcessingStep :=
  { mkPendingStep "OCR" with
      status := .completed, sub_steps_detailed := some [subSmall] }

/-! ## Helper lemmas -/

theorem assocFind_assocSet {β : Type} (m : List (String × β)) (k k' : String)
    (f : β → β) :
    assocFind (assocSet m k f) k' =
      if k' = k then (assocFind m k).map f else assocFind m k' := by
  induction m with
  | nil => simp [assocSet, assocFind]
  | cons p rest ih =>
      obtain ⟨k0, v⟩ := p
      by_cases h0 : k0 = k
      · subst h0
        by_cases h1 : k0 = k'
        · subst h1; simp [assocSet, assocFind]
        · simp [assocSet, assocFind, h1, Ne.symm h1]
      · by_cases h1 : k0 = k'
        · subst h1
          simp [assocSet, assocFind, h0, Ne.symm h0]
        · simp [assocSet, assocFind, h0, h1, ih, Ne.symm h1]

theorem assocFind_append_single {β : Type} (m : List (String × β))
    (k k' : String) (v : β) :
    assocFind (m ++ [(k, v)]) k' =
      if (assocFind m k').isSome then assocFind m k'
      else if k' = k then some v else none := by
  induction m with
  | nil =>
      by_cases h1 : k = k'
      · subst h1; simp [assocFind]
      · simp [assocFind, h1, Ne.symm h1]
  | cons p rest ih =>
      obtain ⟨k0, w⟩ := p
      by_cases h1 : k0 = k' <;> simp [assocFind, h1, ih]

theorem assocFind_map {β : Type} (m : List (String × β)) (k : String)
    (f : β → β) :
    assocFind (m.map fun p => (p.1, f p.2)) k = (assocFind m k).map f := by
  induction m with
  | nil => simp [assocFind]
  | cons p rest ih =>
      obtain ⟨k0, w⟩ := p
      by_cases h1 : k0 = k <;> simp [assocFind, h1, ih]

/-- The trailing duration-refresh of `step_callback` never changes a step's
status field. -/
theorem recalcStep_status (now : ℚ) (s : ProcessingStep) :
    (recalcStep now s).status = s.status := by
  unfold recalcStep
  dsimp only
  split_ifs <;> rfl

/-- `update_execution` writes its `status` argument unconditionally. -/
theorem update_execution_status (e : FlowExecution) (status : String)
    (ed em : Option String) (pt : Option ℚ) (now : ℚ) :
    (update_execution e status ed em pt now).status = status := by
  unfold update_execution
  dsimp only
  cases ed <;> cases em <;> cases pt <;> split_ifs <;> rfl

/-! ## Claim C1 — single in-progress step on `started` -/

/-- C1, counterexample.  The claim says a `started`/`in_progress` event for
one step forcibly completes every other `in_progress` step, so that at most
one step is ever `in_progress`.  In `extract.py`'s `update_step`, an
`in_progress` event touches only the target step: after
`("A", in_progress)` then `("B", in_progress)`, both `A` and `B` are
`in_progress` (and `A` was not completed). -/
theorem two_steps_in_progress_cx :
    inProgressNames
      (update_step_run [("A", "in_progress", 1), ("B", "in_progress", 2)]) =
      ["A", "B"] := by decide

/-- C1, amended.  An `in_progress` event sets only the target step to
`in_progress` (with `start_time` = now); every other step's entry — in
particular any other step still `in_progress` — is left exactly as it was,
so the single-in-progress invariant is not enforced by `update_step`. -/
theorem update_step_in_progress_frame (steps : ExtractSteps) (a : String)
    (now : ℚ) :
    (∀ b, ¬ b = a →
      assocFind (update_step steps a "in_progress" now) b = assocFind steps b) ∧
    (assocFind (update_step steps a "in_progress" now) a).map
        (fun s => (s.status, s.start_time)) = some ("in_progress", some now) := by
  constructor
  · intro b hb
    by_cases hf : (assocFind steps a).isSome
    · simp [update_step, hf, assocFind_assocSet, hb]
    · simp [update_step, hf, assocFind_assocSet, assocFind_append_single, hb]
      intro h
      exact h.symm
  · by_cases hf : (assocFind steps a).isSome
    · obtain ⟨v, hv⟩ := Option.isSome_iff_exists.mp hf
      simp [update_step, hf, assocFind_assocSet, hv]
    · simp [update_step, hf, assocFind_assocSet, assocFind_append_single]

/-- C1, witness for the amended theorem: starting `B` leaves the
`in_progress` step `A` untouched. -/
theorem update_step_in_progress_frame_witness :
    assocFind (update_step [("A", stepA)] "B" "in_progress" 2) "A" =
      assocFind [("A", stepA)] "A" ∧
    (assocFind (update_step [("A", stepA)] "B" "in_progress" 2) "B").map
      (fun s => (s.status, s.start_time)) = some ("in_progress", some (2 : ℚ)) :=
  ⟨(update_step_in_progress_frame [("A", stepA)] "B" 2).1 "A" (by decide),
   (update_step_in_progress_frame [("A", stepA)] "B" 2).2⟩

/-! ## Claim C5 — duration floor on completion -/

/-- C5, counterexample.  The claim says every completed step's duration is
`max(end_time - start_time, ε) ≥ ε > 0` even when `start_time` is missing.
In `extract.py`'s `update_step`, completing a step that was never started
leaves `duration = None`. -/
theorem completed_without_start_cx :
    (assocFind (update_step_run [("A", "completed", 5)]) "A").map
      (fun t => (t.status, t.duration)) = some ("completed", none) := by decide

/-- C5, amended.  In `update_step`, a `completed` event sets
`end_time = now` and `duration = end_time - start_time` exactly (no positive
floor) when a truthy `start_time` exists; with no `start_time` the duration
stays unset (and `failed` events set no timing at all). -/
theorem update_step_completed_duration (steps : ExtractSteps) (name : String)
    (now : ℚ) (s : ExtractStep) (h : assocFind steps name = some s)
    (hs : truthy s.start_time = true) :
    (assocFind (update_step steps name "completed" now) name).map
        (fun t => (t.status, t.end_time, t.duration)) =
      some ("completed", some now, some (now - s.start_time.getD 0)) := by
  have hf : (assocFind steps name).isSome = true := by rw [h]; rfl
  simp [update_step, hf, assocFind_assocSet, h, hs]

/-- C5, witness for the amended theorem. -/
theorem update_step_completed_duration_witness :
    assocFind [("A", stepA)] "A" = some stepA ∧ truthy stepA.start_time = true ∧
    (assocFind (update_step [("A", stepA)] "A" "completed" 5) "A").map
        (fun t => (t.status, t.end_time, t.duration)) =
      some ("completed", some 5, some ((5 : ℚ) - stepA.start_time.getD 0)) :=
  ⟨rfl, by decide,
   update_step_completed_duration [("A", stepA)] "A" 5 stepA rfl (by decide)⟩

/-! ## Claim C7 — monotonic status transitions -/

/-- C7, counterexample.  `update_execution` has no terminal-state guard:
applied to a `completed` record with argument `"pending"`, it moves the
record out of the terminal state, back to `pending`. -/
theorem update_execution_terminal_escape_cx :
    completedExec.status = "completed" ∧
    (update_execution completedExec "pending" none none none 11).status =
      "pending" := ⟨rfl, rfl⟩

/-- C7, amended.  `update_execution` overwrites the stored status with its
argument unconditionally — monotonicity (`pending → processing →
{completed, failed}`, no exit from a terminal state) is not enforced by the
operation and holds only insofar as call sites respect it. -/
theorem update_execution_overwrites_status (e : FlowExecution)
    (status : String) (ed em : Option String) (pt : Option ℚ) (now : ℚ) :
    (update_execution e status ed em pt now).status = status :=
  update_execution_status e status ed em pt now

/-! ## Claim C9 — non-`sub_step` events never change a status -/

/-- C9, confirmed.  A `step_callback` invocation whose `status` argument is
`"in_progress"`, `"completed"` or `"failed"` never changes any step's
status: those branches sit unreachably inside the `status == "sub_step"`
test, so apart from lazily creating the named step as `pending`, only the
trailing duration refresh runs — and it preserves every status. -/
theorem step_callback_frame (d : StepsDict) (step_name status : String)
    (arg : CallbackArg) (now : ℚ) (n : String)
    (h : status = "in_progress" ∨ status = "completed" ∨ status = "failed") :
    statusOf (step_callback d step_name status arg now).1 n =
      if (assocFind d n).isSome then statusOf d n
      else if n = step_name then some StepStatus.pending else none := by
  have hne : ¬ (status = "sub_step") := by
    rcases h with h | h | h <;> subst h <;> decide
  unfold step_callback
  dsimp only
  rw [if_neg hne]
  by_cases hfound : (assocFind d step_name).isSome
  · rw [if_pos hfound]
    cases hv : assocFind d n with
    | some v =>
        simp [statusOf, assocFind_map, hv, recalcStep_status]
    | none =>
        have hn : ¬ n = step_name := by
          rintro rfl; rw [hv] at hfound; simp at hfound
        simp [statusOf, assocFind_map, hv, hn]
  · rw [if_neg hfound]
    cases hv : assocFind d n with
    | some v =>
        have : (assocFind d n).isSome := by rw [hv]; rfl
        simp [statusOf, assocFind_map, assocFind_append_single, hv,
          recalcStep_status]
    | none =>
        by_cases hn : n = step_name
        · subst hn
          simp [statusOf, assocFind_map, assocFind_append_single, hv,
            recalcStep_status, mkPendingStep]
        · simp [statusOf, assocFind_map, assocFind_append_single, hv, hn]

/-- C9, witness: an `in_progress` callback on an empty `steps_dict` creates
the step `pending` (and changes no status). -/
theorem step_callback_frame_witness :
    ("in_progress" = "in_progress" ∨ "in_progress" = "completed" ∨
      "in_progress" = "failed") ∧
    statusOf (step_callback [] "X" "in_progress" .noneArg 1).1 "X" =
      (if (assocFind ([] : StepsDict) "X").isSome then statusOf [] "X"
       else if "X" = "X" then some StepStatus.pending else none) :=
  ⟨Or.inl rfl, step_callback_frame [] "X" "in_progress" .noneArg 1 "X" (Or.inl rfl)⟩

/-! ## Claim C3 — dequeue-if-idle -/

/-- C3, counterexample.  The claim says the check–pop–set sequence of
`get_next_job` takes effect atomically.  The sequence executes as four
separate awaited Redis commands with no transaction; interleaving the
primitive commands of two concurrent calls on a two-job queue lets *both*
calls pass the admission check, pop distinct jobs and return payloads —
whereas under the sequential (atomic) semantics the second call returns
`none` because the first call's Lock exists.  The interleaved outcome is
impossible for any serial order, so the sequence is not atomic. -/
theorem get_next_job_not_atomic_cx :
    (redisGetLock queueTwoJobs = none) ∧
    ((redisLpop queueTwoJobs).1 = some "j1") ∧
    (redisGetLock (redisLpop queueTwoJobs).2 = none) ∧
    ((redisLpop (redisLpop queueTwoJobs).2).1 = some "j2") ∧
    ((redisGetPayload (redisLpop (redisLpop queueTwoJobs).2).2 "j1").isSome = true) ∧
    ((redisGetPayload (redisLpop (redisLpop queueTwoJobs).2).2 "j2").isSome = true) ∧
    ((redisSetLock (redisSetLock (redisLpop (redisLpop queueTwoJobs).2).2 "j1")
        "j2").processing = some "j2") ∧
    ((get_next_job (get_next_job queueTwoJobs).2).1 = none) := by decide

/-- C3, amended.  Per call, `get_next_job` behaves as claimed — `none`
immediately when the Lock exists; `none` on an empty list; otherwise it pops
the head, loads its payload and sets the Lock (TTL `LOCK_TIMEOUT`) before
returning the payload — but the check–pop–set sequence runs as separate
store commands and is not atomic. -/
theorem get_next_job_cases (s : QueueState) :
    (∀ j, s.processing = some j → get_next_job s = (none, s)) ∧
    (s.processing = none → s.queue = [] → get_next_job s = (none, s)) ∧
    (∀ j rest p, s.processing = none → s.queue = j :: rest →
      assocFind s.jobData j = some p →
      get_next_job s =
        (some p, { s with queue := rest, processing := some j,
                          processing_ttl := some LOCK_TIMEOUT })) := by
  refine ⟨?_, ?_, ?_⟩
  · intro j hj
    simp [get_next_job, redisGetLock, hj]
  · intro h1 h2
    simp [get_next_job, redisGetLock, redisLpop, h1, h2]
  · intro j rest p h1 h2 h3
    simp [get_next_job, redisGetLock, redisLpop, redisGetPayload,
      redisSetLock, h1, h2, h3]

/-- C3, witness: on an idle one-job queue the payload is returned and the
Lock is set to the popped id with the configured TTL. -/
theorem get_next_job_cases_witness :
    get_next_job queueOneJob =
      (some payloadW,
       { queueOneJob with
           queue := [], processing := some "j1",
           processing_ttl := some LOCK_TIMEOUT }) :=
  (get_next_job_cases queueOneJob).2.2 "j1" [] payloadW rfl rfl rfl

/-! ## Claim C10 — popped job with missing payload is dropped -/

/-- C10, confirmed.  When `get_next_job` pops a job id whose payload key is
gone, it returns `none` without setting the Lock; the id has already left
the FIFO list, so the job is silently dropped: the worker pass for that
poll performs no engine call, no DB write and no release, and the queue
stays unlocked for later jobs. -/
theorem get_next_job_missing_payload (s : QueueState) (j : String)
    (rest : List String) (h1 : s.processing = none) (h2 : s.queue = j :: rest)
    (h3 : assocFind s.jobData j = none) :
    get_next_job s = (none, { s with queue := rest }) ∧
    ({ s with queue := rest } : QueueState).processing = none ∧
    (j ∉ rest → j ∉ ({ s with queue := rest } : QueueState).queue) ∧
    (∀ env db, extraction_worker_iteration env s db =
      (.next, { s with queue := rest }, db, [])) := by
  have hmain : get_next_job s = (none, { s with queue := rest }) := by
    simp [get_next_job, redisGetLock, redisLpop, redisGetPayload, h1, h2, h3]
  refine ⟨hmain, by rw [← h1], fun h => h, fun env db => ?_⟩
  simp [extraction_worker_iteration, hmain]

/-- C10, witness: a queue whose head id has no payload key. -/
theorem get_next_job_missing_payload_witness :
    get_next_job queueOrphanHead = (none, { queueOrphanHead with queue := [] }) ∧
    ({ queueOrphanHead with queue := [] } : QueueState).processing = none ∧
    ("j1" ∉ ([] : List String) →
      "j1" ∉ ({ queueOrphanHead with queue := [] } : QueueState).queue) ∧
    (∀ env db, extraction_worker_iteration env queueOrphanHead db =
      (.next, { queueOrphanHead with queue := [] }, db, [])) :=
  get_next_job_missing_payload queueOrphanHead "j1" [] rfl rfl rfl

/-! ## Worker-trace helper lemmas -/

theorem countReleases_append (a b : List Ev) :
    countReleases (a ++ b) = countReleases a + countReleases b := by
  simp [countReleases, List.filter_append]

theorem countReleases_redisCallEvents (m : String) :
    countReleases (redisCallEvents m) = 0 := by
  unfold redisCallEvents
  split_ifs <;> rfl

/-- The job body never releases the queue lock itself (release happens in the
worker's `finally` only). -/
theorem pqe_releases (env : WorkerEnv) (payload : JobPayload) (db : DB) :
    countReleases (process_queued_extraction env payload db).2.2 = 0 := by
  unfold process_queued_extraction pqe_try_body
  dsimp only
  split
  · rfl
  · rw [if_neg (by decide)]
    dsimp only
    split <;>
      (simp [countReleases_append, countReleases_redisCallEvents, countReleases,
        isReleaseEv, redisCallEvents]) <;>
      decide

/-! ## Claim C2 — every dequeued job dies on the missing Redis methods -/

/-- C2, confirmed.  `RedisService` defines neither `store_execution` nor
`update_execution`; for every dequeued job with a well-formed payload and an
existing execution row, the job body's first Shared-Store write raises
`AttributeError` (the trace opens with that call and contains no engine
event), the Execution Store records the job as `failed` with that error
message, and the worker pass still releases the Lock. -/
theorem queued_job_attribute_error (env : WorkerEnv) (q : QueueState) (db : DB)
    (jid : String) (rest : List String) (payload : JobPayload)
    (ex : FlowExecution)
    (h1 : q.processing = none) (h2 : q.queue = jid :: rest)
    (h3 : assocFind q.jobData jid = some payload)
    (h4 : hexOk payload = true)
    (h5 : assocFind db payload.execution_id = some ex) :
    ("store_execution" ∉ RedisServiceMethods ∧
     "update_execution" ∉ RedisServiceMethods) ∧
    process_queued_extraction env payload db =
      (.ok (),
       dbUpdateExecution db payload.execution_id "failed" none
         (some "AttributeError: store_execution") none env.now,
       [Ev.redisCall "store_execution", Ev.attrError "store_execution",
        Ev.dbWrite payload.execution_id "failed",
        Ev.redisCall "update_execution", Ev.attrError "update_execution"]) ∧
    (assocFind ((process_queued_extraction env payload db).2.1)
        payload.execution_id).map FlowExecution.status = some "failed" ∧
    extraction_worker_iteration env q db =
      (.next,
       mark_job_complete (redisSetLock { q with queue := rest } jid)
         payload.execution_id,
       (process_queued_extraction env payload db).2.1,
       (process_queued_extraction env payload db).2.2 ++
         [Ev.release payload.execution_id]) ∧
    (mark_job_complete (redisSetLock { q with queue := rest } jid)
        payload.execution_id).processing = none := by
  have hm1 : ¬ ("store_execution" ∈ RedisServiceMethods) := by decide
  have hm2 : ¬ ("update_execution" ∈ RedisServiceMethods) := by decide
  have hpqe : process_queued_extraction env payload db =
      (.ok (),
       dbUpdateExecution db payload.execution_id "failed" none
         (some "AttributeError: store_execution") none env.now,
       [Ev.redisCall "store_execution", Ev.attrError "store_execution",
        Ev.dbWrite payload.execution_id "failed",
        Ev.redisCall "update_execution", Ev.attrError "update_execution"]) := by
    unfold process_queued_extraction pqe_try_body
    rcases hfc : payload.file_content with _ | hs
    · dsimp only
      rw [if_neg hm1]
      dsimp only
      rw [h5]
      simp [redisCallEvents, hm1, hm2]
    · unfold hexOk at h4
      rw [hfc] at h4
      obtain ⟨b, hb⟩ := Option.isSome_iff_exists.mp h4
      dsimp only
      rw [hb]
      dsimp only
      rw [if_neg hm1]
      dsimp only
      rw [h5]
      simp [redisCallEvents, hm1, hm2]
  have hget : get_next_job q =
      (some payload, redisSetLock { q with queue := rest } jid) := by
    simp [get_next_job, redisGetLock, redisLpop, redisGetPayload, h1, h2, h3]
  refine ⟨⟨hm1, hm2⟩, hpqe, ?_, ?_, rfl⟩
  · rw [hpqe]
    simp [dbUpdateExecution, assocFind_assocSet, h5, update_execution_status]
  · unfold extraction_worker_iteration
    rw [hget]

/-- C2, witness: the concrete one-job queue with a URL payload and a pending
execution row ends up `failed` with the Lock free. -/
theorem queued_job_attribute_error_witness :
    (assocFind ((process_queued_extraction envOk payloadW dbJ1).2.1)
        "j1").map FlowExecution.status = some "failed" ∧
    (mark_job_complete (redisSetLock { queueOneJob with queue := [] } "j1")
        "j1").processing = none := by
  have h := queued_job_attribute_error envOk queueOneJob dbJ1 "j1" []
    payloadW pendingExecJ1 rfl rfl rfl (by decide) rfl
  exact ⟨h.2.2.1, h.2.2.2.2⟩

/-! ## Claim C4 — the worker always releases and never stops -/

/-- C4, counterexample.  The claim says a job whose body raises still
surfaces as a `failed` JobRecord.  A payload whose `file_content` is not
valid hex raises `ValueError` in `bytes.fromhex`, *before* the job body's
own `try`: the worker pass catches it, releases the Lock once and
continues — but the execution row is still `pending`, never `failed`. -/
theorem worker_bad_hex_cx :
    (extraction_worker_iteration envOk queueBadHex dbPending).1 = .next ∧
    countReleases (extraction_worker_iteration envOk queueBadHex dbPending).2.2.2 = 1 ∧
    (assocFind (extraction_worker_iteration envOk queueBadHex dbPending).2.2.1
        "e1").map FlowExecution.status = some "pending" := by decide

/-- C4, amended.  For every worker pass: the pass never stops the loop, and
the lock release runs exactly once per dequeued job (zero times when no job
was dequeued), whether or not the job body raised.  The `failed`-JobRecord
marking, however, lives inside the job body's own exception handler and is
skipped when the exception occurs before that handler is in scope. -/
theorem worker_iteration_release_next (env : WorkerEnv) (q : QueueState)
    (db : DB) :
    (extraction_worker_iteration env q db).1 = .next ∧
    countReleases (extraction_worker_iteration env q db).2.2.2 =
      (if (get_next_job q).1.isSome then 1 else 0) := by
  unfold extraction_worker_iteration
  rcases hg : get_next_job q with ⟨po, q1⟩
  cases po with
  | none => simp [countReleases]
  | some payload =>
      dsimp only
      refine ⟨rfl, ?_⟩
      rw [countReleases_append, pqe_releases]
      rfl

/-! ## Claim C6 — SSE stream termination -/

/-- C6: the code's inactivity stop is dead.  The stream loop does close on a
terminal status or a vanished job key, but for a job whose stored value
never changes and stays non-terminal the loop never closes: the keepalive
branch resets `consecutive_no_change` to 0 once it reaches 25, so the
`max_no_change * 50 = 500` ceiling guarded by the "Safety: stop if no change
for too long" comment is unreachable (and `processing`/`pending` are
exempted from it anyway).  Proven for *every* number of no-change polls. -/
theorem sse_stuck_never_closes (jd : LiveState)
    (_h : isTerminalStatus jd.status = false) (n : ℕ) :
    (sse_poll_iter (some jd) (sse_initial_state (some jd)) n).isSome = true := by
  have key : ∀ m c, c ≤ 24 →
      (sse_poll_iter (some jd)
        { last_updated_at := jd.updated_at, last_status := jd.status,
          last_steps := some jd.stepsJson, consecutive_no_change := c }
        m).isSome = true := by
    intro m
    induction m with
    | zero => intro c _; rfl
    | succ m ih =>
        intro c hc
        rw [sse_poll_iter]
        have hstep : sse_poll_step
            { last_updated_at := jd.updated_at, last_status := jd.status,
              last_steps := some jd.stepsJson, consecutive_no_change := c }
            (some jd) =
            .again
              { last_updated_at := jd.updated_at, last_status := jd.status,
                last_steps := some jd.stepsJson,
                consecutive_no_change := if c + 1 ≥ 25 then 0 else c + 1 }
              (if c + 1 ≥ 25 then [.keepalive] else []) := by
          rw [sse_poll_step]
          dsimp only
          rw [if_neg (by simp)]
          rw [if_neg ?close]
          case close =>
            rintro ⟨habs, -⟩
            revert habs
            simp [max_no_change]
            split_ifs <;> omega
        rw [hstep]
        exact ih _ (by split_ifs <;> omega)
  exact key n 0 (by omega)

/-- C6, witness: a job stuck at `pending` still has an open stream after 600
no-change polls — beyond the intended 500-poll ceiling. -/
theorem sse_stuck_never_closes_witness :
    isTerminalStatus (some "pending") = false ∧
    (sse_poll_iter (some pendingLS) (sse_initial_state (some pendingLS))
      600).isSome = true :=
  ⟨rfl, sse_stuck_never_closes pendingLS rfl 600⟩

/-! ## Claim C8 — grouping of small sub-steps -/

/-- `_group_small_substeps` on a list with small completed sub-steps and no
pre-existing synthetic sub-step: the synthetic one is created and the list is
re-sorted (shared by the C8 theorems). -/
theorem group_small_substeps_create (step : ProcessingStep)
    (subs : List SubStep)
    (hsubs : step.sub_steps_detailed = some subs) (hne : subs ≠ [])
    (hnoq : ∀ s ∈ subs, ¬ s.name = QUICK_STEP_NAME)
    (hsm : (smallOf subs).isEmpty = false) :
    (group_small_substeps step).sub_steps_detailed =
      some ((quickStepOf subs :: subs).mergeSort subStepSortLE) := by
  have htr : truthyList (some subs) = true := by
    cases subs with
    | nil => exact absurd rfl hne
    | cons a l => rfl
  have hlast : lastNamed subs QUICK_STEP_NAME = none := by
    unfold lastNamed
    rw [List.filter_eq_nil_iff.mpr (by intro a ha; simpa using hnoq a ha)]
    rfl
  unfold group_small_substeps
  rw [hsubs]
  rw [if_neg (by simp [htr])]
  dsimp only [Option.getD]
  rw [hlast]
  dsimp only
  rw [if_neg (by simp [smallOf] at hsm ⊢; exact hsm)]
  split_ifs <;> rfl

/-- The small sub-steps of `stepWithSmall`. -/
theorem smallOf_single : smallOf [subSmall] = [subSmall] := by
  simp only [smallOf, List.filter, subSmall, QUICK_STEP_NAME]
  norm_num
  simp

/-- C8, counterexample.  The claim says the synthetic sub-step's duration is
the *sum* of the small durations.  With one completed 0.5 ms sub-step the
code floors the synthetic duration at `max(sum, 0.001) = 0.001 ≠ 0.0005`. -/
theorem quick_duration_floor_cx :
    ((group_small_substeps stepWithSmall).sub_steps_detailed.getD []).filter
        (fun s => s.name = QUICK_STEP_NAME) = [quickStepOf [subSmall]] ∧
    (quickStepOf [subSmall]).duration = some 0.001 ∧
    ((smallOf [subSmall]).filterMap SubStep.duration).sum = 0.0005 ∧
    ¬ ((0.001 : ℚ) = 0.0005) := by
  have hsum : ((smallOf [subSmall]).filterMap SubStep.duration).sum = 0.0005 := by
    rw [smallOf_single]
    simp [subSmall]
  have hmain := group_small_substeps_create stepWithSmall [subSmall] rfl
    (by decide) (by decide) (by rw [smallOf_single]; rfl)
  have hperm := List.mergeSort_perm (quickStepOf [subSmall] :: [subSmall])
    subStepSortLE
  have hfil := hperm.filter (fun s => s.name = QUICK_STEP_NAME)
  have hfr : ((quickStepOf [subSmall] :: [subSmall]).filter
      (fun s => s.name = QUICK_STEP_NAME)) = [quickStepOf [subSmall]] := by
    simp [quickStepOf, subSmall, QUICK_STEP_NAME]
  rw [hfr] at hfil
  refine ⟨?_, ?_, hsum, by norm_num⟩
  · rw [hmain]
    exact List.perm_singleton.mp hfil
  · show some (max ((smallOf [subSmall]).filterMap SubStep.duration).sum 0.001) = _
    rw [hsum]
    norm_num

/-- C8, amended.  When all sub-steps of a step have completed and some fall
under the 10 ms threshold, `_group_small_substeps` adds exactly one
synthetic "quick operations" sub-step whose duration is
`max(sum of the small durations, 0.001)`, and every original sub-step — the
small ones included — remains present in the resulting list. -/
theorem group_small_substeps_spec (step : ProcessingStep) (subs : List SubStep)
    (hsubs : step.sub_steps_detailed = some subs) (hne : subs ≠ [])
    (hall : ∀ s ∈ subs, s.status = StepStatus.completed)
    (hnoq : ∀ s ∈ subs, ¬ s.name = QUICK_STEP_NAME)
    (hsmall : ∃ s ∈ subs, s.duration ≠ none ∧ s.duration.getD 0 < 0.01) :
    ∃ out, (group_small_substeps step).sub_steps_detailed = some out ∧
      (∀ s ∈ subs, s ∈ out) ∧
      (∃ qs ∈ out, qs.name = QUICK_STEP_NAME ∧
        qs.status = StepStatus.completed ∧
        qs.duration =
          some (max ((smallOf subs).filterMap SubStep.duration).sum 0.001)) ∧
      (out.filter fun s => s.name = QUICK_STEP_NAME).length = 1 := by
  obtain ⟨w, hw, hwdur, hwlt⟩ := hsmall
  have hwmem : w ∈ smallOf subs := by
    refine List.mem_filter.mpr ⟨hw, ?_⟩
    simp only [decide_eq_true_eq]
    exact ⟨hnoq w hw, hall w hw, hwdur, hwlt⟩
  have hsm : (smallOf subs).isEmpty = false := by
    rw [List.isEmpty_eq_false]
    intro habs
    rw [habs] at hwmem
    exact absurd hwmem (List.not_mem_nil w)
  have hmain := group_small_substeps_create step subs hsubs hne hnoq hsm
  refine ⟨_, hmain, ?_, ?_, ?_⟩
  · intro s hs
    exact List.mem_mergeSort.mpr (List.mem_cons_of_mem _ hs)
  · exact ⟨quickStepOf subs, List.mem_mergeSort.mpr (List.mem_cons_self _ _),
      rfl, rfl, rfl⟩
  · have hperm := List.mergeSort_perm (quickStepOf subs :: subs) subStepSortLE
    rw [(hperm.filter _).length_eq]
    have hnil : (subs.filter fun s => s.name = QUICK_STEP_NAME) = [] := by
      rw [List.filter_eq_nil_iff]
      intro a ha
      simpa using hnoq a ha
    simp [List.filter_cons, hnil, quickStepOf]

/-- C8, witness: the one-small-sub-step instance. -/
theorem group_small_substeps_spec_witness :
    ∃ out, (group_small_substeps stepWithSmall).sub_steps_detailed = some out ∧
      (∀ s ∈ [subSmall], s ∈ out) ∧
      (∃ qs ∈ out, qs.name = QUICK_STEP_NAME ∧
        qs.status = StepStatus.completed ∧
        qs.duration =
          some (max ((smallOf [subSmall]).filterMap SubStep.duration).sum 0.001)) ∧
      (out.filter fun s => s.name = QUICK_STEP_NAME).length = 1 :=
  group_small_substeps_spec stepWithSmall [subSmall] rfl (by decide)
    (by decide) (by decide)
    ⟨subSmall, by simp, by simp [subSmall], by norm_num [subSmall]⟩

end MarkerOCR
